import Mathlib

/-!
Verification of the BLIMP equality-scan compliance simulator
(compliance/blimp_equality/blimp_equality.cpp).

The program models a DRAM bank as 32768 rows of 1024 bytes, lays out
fixed-size records and bit-packed hitmaps in that row space, and runs a
row-buffer-disciplined equality scan that packs match bits MSB-first into
bytes, staging them in an accumulator row v0 that is flushed to the hitmap
zone every 1024 completed bytes.

Machine integers are modelled as Nat; the only places where C signedness or
truncation matters are noted at the definition concerned.  The bank memory,
the row buffer and the accumulator row v0 are modelled as total functions
from indices to byte values; the C arrays have fixed extent and every
access performed by the program is in bounds, so the extra points of the
functions are never read by the embedded program.
-/

namespace BlimpEq

/-! ## Compile-time constants (blimp_equality.cpp lines 12-34) -/

def BANK_SIZE_BYTES : Nat := 33554432
def ROW_BUFFER_BYTES : Nat := 1024
def BANK_ROWS : Nat := 32768
def HITMAP_COUNT : Nat := 3
def INDEX_SIZE_BYTES : Nat := 8
def RECORD_SIZE_BYTES : Nat := 512
def DATA_SIZE_BYTES : Nat := 504
def ROWS_FOR_RECORDS : Nat := 32220
def ROWS_FOR_HITMAPS : Nat := 24
def RECORDS_PROCESSABLE : Nat := 64440
def HITMAP_BASE_ROW : Nat := 32734
def RECORD_BASE_ROW : Nat := 514
def PI_SUBINDEX_OFFSET_BYTES : Nat := 0
def PI_ELEMENT_SIZE_BYTES : Nat := 8

/-- The 8-byte target value `_VALUE`, all zero bytes (line 32/43). -/
def VALUE : Nat → Nat := fun _ => 0

def NEGATE : Nat := 0
def HITMAP_INDEX : Nat := 1

/-- A configuration bundles the compile-time macros that parameterise the
program.  The reference binary fixes them to the values above; the spec and
its testable properties quantify over `recordsProcessable` (and over the
declared-but-unused `negate` flag), so those are carried as fields. -/
structure Config where
  W : Nat
  hitmapCount : Nat
  recordSize : Nat
  rowsForRecords : Nat
  rowsForHitmaps : Nat
  recordsProcessable : Nat
  hitmapBaseRow : Nat
  recordBaseRow : Nat
  subindexOffset : Nat
  elementSize : Nat
  value : Nat → Nat
  negate : Nat
  hitmapIndex : Nat

/-- The reference configuration: exactly the macro values of the source. -/
def refCfg : Config :=
  { W := ROW_BUFFER_BYTES
    hitmapCount := HITMAP_COUNT
    recordSize := RECORD_SIZE_BYTES
    rowsForRecords := ROWS_FOR_RECORDS
    rowsForHitmaps := ROWS_FOR_HITMAPS
    recordsProcessable := RECORDS_PROCESSABLE
    hitmapBaseRow := HITMAP_BASE_ROW
    recordBaseRow := RECORD_BASE_ROW
    subindexOffset := PI_SUBINDEX_OFFSET_BYTES
    elementSize := PI_ELEMENT_SIZE_BYTES
    value := VALUE
    negate := NEGATE
    hitmapIndex := HITMAP_INDEX }

/-- The reference configuration with `RECORDS_PROCESSABLE` replaced. -/
def cfgRP (rp : Nat) : Config := { refCfg with recordsProcessable := rp }

/-! ## Derived quantities computed in main (lines 125-129) -/

/-- `rows_per_hitmap = ROWS_FOR_HITMAPS / HITMAP_COUNT` (line 125). -/
def rows_per_hitmap (c : Config) : Nat := c.rowsForHitmaps / c.hitmapCount

/-- `targeted_hitmap_base = HITMAP_BASE_ROW + rows_per_hitmap * HITMAP_INDEX`
(line 126). -/
def targeted_hitmap_base (c : Config) : Nat :=
  c.hitmapBaseRow + rows_per_hitmap c * c.hitmapIndex

/-- `records_per_row = ROW_BUFFER_BYTES / RECORD_SIZE_BYTES` (line 128). -/
def records_per_row (c : Config) : Nat := c.W / c.recordSize

/-- `rows_per_record = RECORD_SIZE_BYTES / ROW_BUFFER_BYTES` (line 129). -/
def rows_per_record (c : Config) : Nat := c.recordSize / c.W

/-! ## Machine state -/

/-- The mutable global state of the program: the bank `memory`, the single
resident `rowbuffer` with its `current_row` tag, the accumulator row `v0`
and the scan bookkeeping `bitmap`/`bitdex`/`hitdex` (lines 40-45, 131-133).
`stores` is a ghost log of the row indices passed to `store_v0`, recording
which rows the program wrote; it has no influence on the computation. -/
@[ext] structure MState where
  mem : Nat → Nat → Nat
  rowbuffer : Nat → Nat
  current_row : Nat
  v0 : Nat → Nat
  bitmap : Nat
  bitdex : Nat
  hitdex : Nat
  stores : List Nat

/-- `load_row` (lines 47-52): copy the requested row into the row buffer and
remember its index. -/
def load_row (s : MState) (row_index : Nat) : MState :=
  { s with rowbuffer := fun byte => s.mem row_index byte, current_row := row_index }

/-- `store_v0` (lines 54-58): copy the `W` bytes of `v0` into the requested
memory row.  The ghost `stores` log records the row index. -/
def store_v0 (c : Config) (s : MState) (row_index : Nat) : MState :=
  { s with
    mem := fun r byte => if r = row_index ∧ byte < c.W then s.v0 byte else s.mem r byte
    stores := s.stores ++ [row_index] }

/-- C `memcmp(a + i, b + j, n)`: zero iff the `n` bytes agree, otherwise the
(signed) difference of the first mismatching pair.  Only the comparison with
zero is used by the program (line 161). -/
def memcmp (a : Nat → Nat) (i : Nat) (b : Nat → Nat) (j : Nat) : Nat → Int
  | 0 => 0
  | n + 1 => if a i = b j then memcmp a (i + 1) b (j + 1) n else (a i : Int) - (b j : Int)

/-- The row holding record `record_index` (lines 143-150).  The C test is
`records_per_row <= 0`; both operands of the division producing
`records_per_row` are nonnegative ints, so `<= 0` is the same as `= 0`. -/
def record_row (c : Config) (record_index : Nat) : Nat :=
  if records_per_row c = 0 then c.recordBaseRow + record_index * rows_per_record c
  else c.recordBaseRow + record_index / records_per_row c

/-- The byte offset of record `record_index` inside its row (lines 143-150). -/
def record_offset (c : Config) (record_index : Nat) : Nat :=
  if records_per_row c = 0 then 0
  else record_index % records_per_row c * c.recordSize

/-- Lines 153-155: reload the row buffer only when the wanted row is not the
one currently resident. -/
def fetch (c : Config) (s : MState) (record_index : Nat) : MState :=
  if s.current_row ≠ record_row c record_index then load_row s (record_row c record_index) else s

/-- The comparison result bit for the currently fetched record (lines
158-175): 1 when `memcmp` of the `elementSize` key bytes against the target
value returned 0, otherwise 0. -/
def bitOf (c : Config) (s1 : MState) (record_index : Nat) : Nat :=
  if memcmp s1.rowbuffer (record_offset c record_index + c.subindexOffset) c.value 0 c.elementSize = 0
  then 1 else 0

/-- Bookkeeping of the scan loop after a bit has been folded into `bitmap1`
(lines 174-190): advance `bitdex`; on a byte boundary write the completed
byte into `v0` at `hitdex mod W` and advance `hitdex`; when that fills `v0`,
flush it to the hitmap row `targeted_hitmap_base + (hitdex - 1) / W`.
`bitmap` is a `uint8_t`, hence the `% 256`; `hitdex - 1` occurs only with
`hitdex ≥ 1` here, so Nat subtraction agrees with the C int arithmetic. -/
def commitScan (c : Config) (s1 : MState) (bitmap1 : Nat) : MState :=
  if (s1.bitdex + 1) % 8 = 0 then
    if (s1.hitdex + 1) % c.W = 0 then
      store_v0 c
        { s1 with
          bitmap := bitmap1
          bitdex := s1.bitdex + 1
          v0 := fun j => if j = s1.hitdex % c.W then bitmap1 else s1.v0 j
          hitdex := s1.hitdex + 1 }
        (targeted_hitmap_base c + (s1.hitdex + 1 - 1) / c.W)
    else
      { s1 with
        bitmap := bitmap1
        bitdex := s1.bitdex + 1
        v0 := fun j => if j = s1.hitdex % c.W then bitmap1 else s1.v0 j
        hitdex := s1.hitdex + 1 }
  else { s1 with bitmap := bitmap1, bitdex := s1.bitdex + 1 }

/-- One iteration of the scan loop body for `record_index` (lines 137-191). -/
def scanStep (c : Config) (s : MState) (record_index : Nat) : MState :=
  commitScan c (fetch c s record_index)
    (((fetch c s record_index).bitmap * 2 + bitOf c (fetch c s record_index) record_index) % 256)

/-- The scan loop: records `0, 1, ..., n-1` in order (line 137). -/
def scanLoop (c : Config) (s : MState) : Nat → MState
  | 0 => s
  | n + 1 => scanStep c (scanLoop c s n) n

/-- One iteration of the draining loop body (lines 195-203): shift a 1 bit
into `bitmap`; on a byte boundary write the byte into `v0` and advance
`hitdex`.  No flush happens inside this loop. -/
def drainStep (c : Config) (s : MState) : MState :=
  if (s.bitdex + 1) % 8 = 0 then
    { s with
      bitmap := (s.bitmap * 2 + 1) % 256
      bitdex := s.bitdex + 1
      v0 := fun j => if j = s.hitdex % c.W then (s.bitmap * 2 + 1) % 256 else s.v0 j
      hitdex := s.hitdex + 1 }
  else { s with bitmap := (s.bitmap * 2 + 1) % 256, bitdex := s.bitdex + 1 }

/-- The draining loop `while (hitdex % ROW_BUFFER_BYTES != 0)` (line 194),
written with explicit fuel.  Each completed byte takes 8 iterations and at
most `W` bytes are ever outstanding, so `8 * W` fuel always suffices; the
drain characterisation below proves the loop indeed reaches its exit
condition within that budget whenever it is entered by the program. -/
def drainLoop (c : Config) : Nat → MState → MState
  | 0, s => s
  | fuel + 1, s => if s.hitdex % c.W = 0 then s else drainLoop c fuel (drainStep c s)

/-- `create_memory` (lines 60-103) without the PRNG: the record zone content
is abstracted by the byte stream `data` (each generated byte is
`rand() % 256`, hence the `% 256`).  Utility rows are zero, hitmap rows are
all `0xFF`, tail rows are zero, and an 8-byte zero sentinel is planted at
row `HITMAP_BASE_ROW - 10`. -/
def initMem (data : Nat → Nat → Nat) : Nat → Nat → Nat := fun row byte =>
  if row < RECORD_BASE_ROW then 0
  else if row < HITMAP_BASE_ROW then
    if row = HITMAP_BASE_ROW - 10 ∧ byte < 8 then 0 else data row byte % 256
  else if row < HITMAP_BASE_ROW + ROWS_FOR_HITMAPS then 255
  else 0

/-- The state right after `create_memory`: `v0` zeroed (lines 98-100) and
row 0 loaded into the row buffer (line 102), all bookkeeping zero
(lines 131-133). -/
def startState (m : Nat → Nat → Nat) : MState :=
  { mem := m
    rowbuffer := fun byte => m 0 byte
    current_row := 0
    v0 := fun _ => 0
    bitmap := 0
    bitdex := 0
    hitdex := 0
    stores := [] }

/-- The whole run of `main` after `create_memory` (lines 131-205): the scan
loop over all records, the draining loop, and the final unconditional
`store_v0`.  At the final store, C computes `(hitdex - 1) / W` with int
division truncating toward zero, so `hitdex = 0` yields row offset
`(-1)/1024 = 0`; Nat subtraction gives `(0 - 1) / 1024 = 0` as well, so the
Nat expression agrees with the C one for every `hitdex`. -/
def run (c : Config) (m : Nat → Nat → Nat) : MState :=
  let s1 := scanLoop c (startState m) c.recordsProcessable
  let s2 := drainLoop c (8 * c.W) s1
  store_v0 c s2 (targeted_hitmap_base c + (s2.hitdex - 1) / c.W)

/-- The address label printed by `dump_memory` for a row (line 109).  The
source writes `(uint8_t) row * ROW_BUFFER_BYTES`: the cast applies to `row`
alone (a cast binds tighter than `*`), so the row index is truncated to
8 bits before the multiplication. -/
def dump_addr (row : Nat) : Nat := row % 256 * ROW_BUFFER_BYTES

/-! ## Row zones (the branch conditions of create_memory, lines 63-84) -/

/-- Rows `[0, RECORD_BASE_ROW)`: utility zone (line 63). -/
def utilityZone (r : Nat) : Prop := r < RECORD_BASE_ROW

/-- Rows `[RECORD_BASE_ROW, HITMAP_BASE_ROW)`: record zone (line 69). -/
def recordZone (r : Nat) : Prop := RECORD_BASE_ROW ≤ r ∧ r < HITMAP_BASE_ROW

/-- Rows `[HITMAP_BASE_ROW, HITMAP_BASE_ROW + ROWS_FOR_HITMAPS)`: hitmap
zone (line 75). -/
def hitmapZone (r : Nat) : Prop :=
  HITMAP_BASE_ROW ≤ r ∧ r < HITMAP_BASE_ROW + ROWS_FOR_HITMAPS

/-- Rows beyond the hitmap zone up to `BANK_ROWS`: tail zone (line 80). -/
def tailZone (r : Nat) : Prop :=
  HITMAP_BASE_ROW + ROWS_FOR_HITMAPS ≤ r ∧ r < BANK_ROWS

/-! ## Specification-side functions used to state the loop invariants -/

/-- The match bit of record `i` of initial memory `m0`: the very comparison
the scan performs, evaluated against the untouched record row. -/
def matchBit (m0 : Nat → Nat → Nat) (i : Nat) : Nat :=
  if memcmp (fun byte => m0 (record_row refCfg i) byte)
      (record_offset refCfg i + refCfg.subindexOffset) refCfg.value 0 refCfg.elementSize = 0
  then 1 else 0

/-- The value of the 8-bit accumulator `bitmap` after folding in the first
`k` bits of the stream `f`, shifting left and truncating to a byte each
step, exactly as lines 174-175 do. -/
def Bfold (f : Nat → Nat) : Nat → Nat
  | 0 => 0
  | k + 1 => (Bfold f k * 2 + f k) % 256

/-- Byte `b` of the bit stream `f` packed most-significant-bit first: bit
`8b` lands in the MSB (weight 128), bit `8b+7` in the LSB. -/
def packByte (f : Nat → Nat) (b : Nat) : Nat :=
  128 * f (8 * b) + 64 * f (8 * b + 1) + 32 * f (8 * b + 2) + 16 * f (8 * b + 3) +
    8 * f (8 * b + 4) + 4 * f (8 * b + 5) + 2 * f (8 * b + 6) + f (8 * b + 7)

/-- The content of `v0` after `k` scan iterations on initial memory `m0`:
with `cb = k / 8` completed bytes, the first `cb % 1024` slots hold the
bytes of the row in progress and the remaining slots still hold the bytes
of the previous accumulator row (or the initial zeros). -/
def v0spec (m0 : Nat → Nat → Nat) (k j : Nat) : Nat :=
  if 1024 ≤ j then 0
  else if j < k / 8 % 1024 then packByte (matchBit m0) (k / 8 / 1024 * 1024 + j)
  else if k / 8 / 1024 = 0 then 0
  else packByte (matchBit m0) ((k / 8 / 1024 - 1) * 1024 + j)

/-- The bank memory after `k` scan iterations on initial memory `m0`: the
first `k / 8 / 1024` rows of the targeted hitmap hold the flushed packed
bytes, everything else is untouched. -/
def memspec (m0 : Nat → Nat → Nat) (k r b : Nat) : Nat :=
  if 32742 ≤ r ∧ r < 32742 + k / 8 / 1024 ∧ b < 1024 then
    packByte (matchBit m0) ((r - 32742) * 1024 + b)
  else m0 r b

/-- The content of `v0` after the draining loop, entered with accumulator
byte `bm`, `bm` holding `q` pending bits, and `d = hitdex % 1024 ≠ 0` slots
already filled in the current row: slot `d` receives the pending bits padded
with ones, the slots above it receive `0xFF`, the rest is unchanged. -/
def drainSpecV0 (v0 : Nat → Nat) (bm q d : Nat) : Nat → Nat := fun j =>
  if d ≤ j ∧ j < 1024 then
    if j = d then (bm * 2 ^ (8 - q) + (2 ^ (8 - q) - 1)) % 256 else 255
  else v0 j

/-- The loop invariant of the scan loop on the reference geometry, after `k`
iterations from the post-initialisation state. -/
structure Inv (m0 : Nat → Nat → Nat) (k : Nat) (s : MState) : Prop where
  hbitdex : s.bitdex = k
  hhitdex : s.hitdex = k / 8
  hbitmap : s.bitmap = Bfold (matchBit m0) k
  hcur : s.current_row = if k = 0 then 0 else record_row refCfg (k - 1)
  hrb : ∀ b, s.rowbuffer b = m0 (if k = 0 then 0 else record_row refCfg (k - 1)) b
  hv0 : ∀ j, s.v0 j = v0spec m0 k j
  hmem : ∀ r b, s.mem r b = memspec m0 k r b
  hstores : s.stores = (List.range (k / 8 / 1024)).map (fun f => 32742 + f)

/-! ## Concrete inputs used in witnesses and counterexamples -/

/-- A record-zone byte stream of all ones: no record key matches the
all-zero target value. -/
def dataOnes : Nat → Nat → Nat := fun _ _ => 1

/-- A record-zone byte stream of all zeros: every record key matches the
all-zero target value. -/
def dataZero : Nat → Nat → Nat := fun _ _ => 0

/-- The manually constructed bank for testable property P3: sixteen records
live in rows 514-521 (two 512-byte records per 1024-byte row); exactly the
key fields of records 0, 3 and 5 hold the all-zero target value, every
other byte is 1. -/
def memC3 : Nat → Nat → Nat := fun r b =>
  if r = 514 ∧ b < 8 then 0
  else if r = 515 ∧ 512 ≤ b ∧ b < 520 then 0
  else if r = 516 ∧ 512 ≤ b ∧ b < 520 then 0
  else 1

/-! ## Reduction lemmas for the reference configuration -/

theorem refCfg_W : refCfg.W = 1024 := rfl

theorem cfgRP_W (rp : Nat) : (cfgRP rp).W = 1024 := rfl

theorem cfgRP_recordsProcessable (rp : Nat) : (cfgRP rp).recordsProcessable = rp := rfl

theorem targeted_refCfg : targeted_hitmap_base refCfg = 32742 := rfl

theorem targeted_cfgRP (rp : Nat) : targeted_hitmap_base (cfgRP rp) = 32742 := by
  simp [targeted_hitmap_base, rows_per_hitmap, cfgRP, refCfg, HITMAP_BASE_ROW,
    ROWS_FOR_HITMAPS, HITMAP_COUNT, HITMAP_INDEX]

theorem rows_per_hitmap_refCfg : rows_per_hitmap refCfg = 8 := rfl

theorem record_row_refCfg (i : Nat) : record_row refCfg i = 514 + i / 2 := rfl

theorem record_offset_refCfg (i : Nat) : record_offset refCfg i = i % 2 * 512 := rfl

theorem scanStep_cfgRP (rp : Nat) (s : MState) (i : Nat) :
    scanStep (cfgRP rp) s i = scanStep refCfg s i := rfl

theorem scanLoop_cfgRP (rp : Nat) (s : MState) :
    ∀ k, scanLoop (cfgRP rp) s k = scanLoop refCfg s k := by
  intro k
  induction k with
  | zero => rfl
  | succ k ih => rw [scanLoop, scanLoop, ih, scanStep_cfgRP]

theorem drainStep_cfgRP (rp : Nat) (s : MState) :
    drainStep (cfgRP rp) s = drainStep refCfg s := rfl

theorem drainLoop_cfgRP (rp : Nat) :
    ∀ fuel s, drainLoop (cfgRP rp) fuel s = drainLoop refCfg fuel s := by
  intro fuel
  induction fuel with
  | zero => intro s; rfl
  | succ f ih =>
    intro s
    rw [show drainLoop (cfgRP rp) (f + 1) s
          = if s.hitdex % 1024 = 0 then s else drainLoop (cfgRP rp) f (drainStep (cfgRP rp) s)
        from rfl,
      show drainLoop refCfg (f + 1) s
          = if s.hitdex % 1024 = 0 then s else drainLoop refCfg f (drainStep refCfg s)
        from rfl,
      drainStep_cfgRP, ih]

theorem store_v0_cfgRP (rp : Nat) (s : MState) (r : Nat) :
    store_v0 (cfgRP rp) s r = store_v0 refCfg s r := rfl

theorem run_cfgRP (rp : Nat) (m : Nat → Nat → Nat) :
    run (cfgRP rp) m =
      store_v0 refCfg (drainLoop refCfg 8192 (scanLoop refCfg (startState m) rp))
        (32742 + ((drainLoop refCfg 8192 (scanLoop refCfg (startState m) rp)).hitdex - 1) / 1024) := by
  show store_v0 (cfgRP rp) (drainLoop (cfgRP rp) 8192 (scanLoop (cfgRP rp) (startState m) rp))
      (targeted_hitmap_base (cfgRP rp)
        + ((drainLoop (cfgRP rp) 8192 (scanLoop (cfgRP rp) (startState m) rp)).hitdex - 1)
          / (cfgRP rp).W) = _
  rw [scanLoop_cfgRP, drainLoop_cfgRP, store_v0_cfgRP, targeted_cfgRP, cfgRP_W]

/-- The drain loop is the identity whenever its exit condition already
holds. -/
theorem drainLoop_done (fuel : Nat) (s : MState) (h : s.hitdex % 1024 = 0) :
    drainLoop refCfg fuel s = s := by
  cases fuel with
  | zero => rfl
  | succ f =>
    rw [show drainLoop refCfg (f + 1) s
          = if s.hitdex % 1024 = 0 then s else drainLoop refCfg f (drainStep refCfg s)
        from rfl, if_pos h]

theorem drainLoop_succ (f : Nat) (s : MState) :
    drainLoop refCfg (f + 1) s
      = if s.hitdex % 1024 = 0 then s else drainLoop refCfg f (drainStep refCfg s) := rfl

/-! ## memcmp -/

/-- `memcmp` returns zero exactly when the `n` compared bytes agree
pairwise. -/
theorem memcmp_eq_zero_iff (a b : Nat → Nat) :
    ∀ n i j, (memcmp a i b j n = 0 ↔ ∀ z, z < n → a (i + z) = b (j + z)) := by
  intro n
  induction n with
  | zero => intro i j; simp [memcmp]
  | succ n ih =>
    intro i j
    rw [memcmp]
    by_cases h : a i = b j
    · rw [if_pos h, ih (i + 1) (j + 1)]
      constructor
      · intro H z hz
        cases z with
        | zero => simpa using h
        | succ z =>
          have hz2 := H z (by omega)
          rw [show i + (z + 1) = i + 1 + z from by omega,
            show j + (z + 1) = j + 1 + z from by omega]
          exact hz2
      · intro H z hz
        rw [show i + 1 + z = i + (z + 1) from by omega,
          show j + 1 + z = j + (z + 1) from by omega]
        exact H (z + 1) (by omega)
    · rw [if_neg h]
      constructor
      · intro H
        exfalso
        apply h
        have h2 : ((a i : Int) - (b j : Int)) = 0 := H
        have h3 := sub_eq_zero.mp h2
        exact_mod_cast h3
      · intro H
        exfalso
        apply h
        simpa using H 0 (by omega)

/-! ## The bitmap fold -/

theorem Bfold_succ (f : Nat → Nat) (k : Nat) :
    Bfold f (k + 1) = (Bfold f k * 2 + f k) % 256 := rfl

theorem matchBit_le (m0 : Nat → Nat → Nat) (i : Nat) : matchBit m0 i ≤ 1 := by
  unfold matchBit; split <;> omega

/-- Folding a full group of 8 bits, each 0 or 1, into the byte accumulator
produces exactly the MSB-first packed byte of that group. -/
theorem Bfold_byte (f : Nat → Nat) (hf : ∀ i, f i ≤ 1) (a : Nat) :
    Bfold f (8 * a + 8) = packByte f a := by
  have e1 : Bfold f (8 * a + 1) = (Bfold f (8 * a) * 2 + f (8 * a)) % 256 := Bfold_succ f (8 * a)
  have e2 : Bfold f (8 * a + 2) = (Bfold f (8 * a + 1) * 2 + f (8 * a + 1)) % 256 :=
    Bfold_succ f (8 * a + 1)
  have e3 : Bfold f (8 * a + 3) = (Bfold f (8 * a + 2) * 2 + f (8 * a + 2)) % 256 :=
    Bfold_succ f (8 * a + 2)
  have e4 : Bfold f (8 * a + 4) = (Bfold f (8 * a + 3) * 2 + f (8 * a + 3)) % 256 :=
    Bfold_succ f (8 * a + 3)
  have e5 : Bfold f (8 * a + 5) = (Bfold f (8 * a + 4) * 2 + f (8 * a + 4)) % 256 :=
    Bfold_succ f (8 * a + 4)
  have e6 : Bfold f (8 * a + 6) = (Bfold f (8 * a + 5) * 2 + f (8 * a + 5)) % 256 :=
    Bfold_succ f (8 * a + 5)
  have e7 : Bfold f (8 * a + 7) = (Bfold f (8 * a + 6) * 2 + f (8 * a + 6)) % 256 :=
    Bfold_succ f (8 * a + 6)
  have e8 : Bfold f (8 * a + 8) = (Bfold f (8 * a + 7) * 2 + f (8 * a + 7)) % 256 :=
    Bfold_succ f (8 * a + 7)
  have h0 := hf (8 * a)
  have h1 := hf (8 * a + 1)
  have h2 := hf (8 * a + 2)
  have h3 := hf (8 * a + 3)
  have h4 := hf (8 * a + 4)
  have h5 := hf (8 * a + 5)
  have h6 := hf (8 * a + 6)
  have h7 := hf (8 * a + 7)
  rw [e8, e7, e6, e5, e4, e3, e2, e1]
  unfold packByte
  omega

/-! ## Ignoring the negate flag -/

theorem scanStep_negate (c : Config) (x y : Nat) (s : MState) (i : Nat) :
    scanStep { c with negate := x } s i = scanStep { c with negate := y } s i := rfl

theorem scanLoop_negate (c : Config) (x y : Nat) (s : MState) :
    ∀ k, scanLoop { c with negate := x } s k = scanLoop { c with negate := y } s k := by
  intro k
  induction k with
  | zero => rfl
  | succ k ih => rw [scanLoop, scanLoop, ih, scanStep_negate]

theorem drainStep_negate (c : Config) (x y : Nat) (s : MState) :
    drainStep { c with negate := x } s = drainStep { c with negate := y } s := rfl

theorem drainLoop_negate (c : Config) (x y : Nat) :
    ∀ fuel s, drainLoop { c with negate := x } fuel s = drainLoop { c with negate := y } fuel s := by
  intro fuel
  induction fuel with
  | zero => intro s; rfl
  | succ f ih =>
    intro s
    rw [show drainLoop { c with negate := x } (f + 1) s
          = if s.hitdex % c.W = 0 then s
            else drainLoop { c with negate := x } f (drainStep { c with negate := x } s)
        from rfl,
      show drainLoop { c with negate := y } (f + 1) s
          = if s.hitdex % c.W = 0 then s
            else drainLoop { c with negate := y } f (drainStep { c with negate := y } s)
        from rfl,
      drainStep_negate, ih]

theorem run_negate (c : Config) (x y : Nat) (m : Nat → Nat → Nat) :
    run { c with negate := x } m = run { c with negate := y } m := by
  show store_v0 { c with negate := x }
      (drainLoop { c with negate := x } (8 * c.W)
        (scanLoop { c with negate := x } (startState m) c.recordsProcessable))
      (targeted_hitmap_base { c with negate := x }
        + ((drainLoop { c with negate := x } (8 * c.W)
            (scanLoop { c with negate := x } (startState m) c.recordsProcessable)).hitdex - 1)
          / c.W) = _
  rw [scanLoop_negate c x y, drainLoop_negate c x y]
  rfl

/-! ## Projections of the scan-loop bookkeeping step -/

theorem commitScan_rowbuffer (c : Config) (s1 : MState) (b1 : Nat) :
    (commitScan c s1 b1).rowbuffer = s1.rowbuffer := by
  unfold commitScan store_v0
  split
  · split
    · rfl
    · rfl
  · rfl

theorem commitScan_current_row (c : Config) (s1 : MState) (b1 : Nat) :
    (commitScan c s1 b1).current_row = s1.current_row := by
  unfold commitScan store_v0
  split
  · split
    · rfl
    · rfl
  · rfl

theorem commitScan_bitmap (c : Config) (s1 : MState) (b1 : Nat) :
    (commitScan c s1 b1).bitmap = b1 := by
  unfold commitScan store_v0
  split
  · split
    · rfl
    · rfl
  · rfl

theorem commitScan_bitdex (c : Config) (s1 : MState) (b1 : Nat) :
    (commitScan c s1 b1).bitdex = s1.bitdex + 1 := by
  unfold commitScan store_v0
  split
  · split
    · rfl
    · rfl
  · rfl

theorem fetch_mem (c : Config) (s : MState) (i : Nat) : (fetch c s i).mem = s.mem := by
  unfold fetch load_row
  split
  · rfl
  · rfl

theorem fetch_v0 (c : Config) (s : MState) (i : Nat) : (fetch c s i).v0 = s.v0 := by
  unfold fetch load_row
  split
  · rfl
  · rfl

theorem fetch_bitmap (c : Config) (s : MState) (i : Nat) : (fetch c s i).bitmap = s.bitmap := by
  unfold fetch load_row
  split
  · rfl
  · rfl

theorem fetch_bitdex (c : Config) (s : MState) (i : Nat) : (fetch c s i).bitdex = s.bitdex := by
  unfold fetch load_row
  split
  · rfl
  · rfl

theorem fetch_hitdex (c : Config) (s : MState) (i : Nat) : (fetch c s i).hitdex = s.hitdex := by
  unfold fetch load_row
  split
  · rfl
  · rfl

theorem fetch_stores (c : Config) (s : MState) (i : Nat) : (fetch c s i).stores = s.stores := by
  unfold fetch load_row
  split
  · rfl
  · rfl

/-! ## The scan-loop invariant -/

theorem v0spec_stable (m0 : Nat → Nat → Nat) (k j : Nat) (h : (k + 1) / 8 = k / 8) :
    v0spec m0 (k + 1) j = v0spec m0 k j := by
  unfold v0spec
  rw [h]

theorem memspec_stable (m0 : Nat → Nat → Nat) (k r b : Nat)
    (h : (k + 1) / 8 / 1024 = k / 8 / 1024) :
    memspec m0 (k + 1) r b = memspec m0 k r b := by
  unfold memspec
  rw [h]

theorem Inv_zero (m0 : Nat → Nat → Nat) : Inv m0 0 (startState m0) := by
  refine ⟨rfl, rfl, rfl, rfl, fun b => rfl, ?_, ?_, ?_⟩
  · intro j
    unfold startState v0spec
    simp
  · intro r b
    unfold startState memspec
    rw [if_neg (by omega)]
  · unfold startState
    simp

set_option maxRecDepth 4000 in
theorem Inv_step (m0 : Nat → Nat → Nat) (k : Nat) (s : MState) (hk : k < 64440)
    (I : Inv m0 k s) : Inv m0 (k + 1) (scanStep refCfg s k) := by
  obtain ⟨hbd, hhd, hbm, hcu, hrb, hv0, hmem, hst⟩ := I
  have hrr : record_row refCfg k = 514 + k / 2 := record_row_refCfg k
  have hFmem : ∀ r b, (fetch refCfg s k).mem r b = memspec m0 k r b := by
    intro r b
    rw [fetch_mem]
    exact hmem r b
  have hFmemf : (fetch refCfg s k).mem = fun r b => memspec m0 k r b :=
    funext fun r => funext fun b => hFmem r b
  have hFv0f : (fetch refCfg s k).v0 = fun j => v0spec m0 k j := by
    rw [fetch_v0]
    exact funext hv0
  have hFbd : (fetch refCfg s k).bitdex = k := by rw [fetch_bitdex]; exact hbd
  have hFhd : (fetch refCfg s k).hitdex = k / 8 := by rw [fetch_hitdex]; exact hhd
  have hFbm : (fetch refCfg s k).bitmap = Bfold (matchBit m0) k := by
    rw [fetch_bitmap]; exact hbm
  have hFst : (fetch refCfg s k).stores = (List.range (k / 8 / 1024)).map (fun f => 32742 + f) := by
    rw [fetch_stores]; exact hst
  have hFrb : ∀ b, (fetch refCfg s k).rowbuffer b = m0 (record_row refCfg k) b := by
    unfold fetch
    split
    · intro b
      show s.mem (record_row refCfg k) b = _
      rw [hmem]
      unfold memspec
      rw [if_neg (by rw [hrr]; omega)]
    · rename_i h
      have hceq : s.current_row = record_row refCfg k := not_not.mp h
      intro b
      rw [hrb b, ← hcu, hceq]
  have hFcur : (fetch refCfg s k).current_row = record_row refCfg k := by
    unfold fetch
    split
    · rfl
    · rename_i h
      exact not_not.mp h
  have hbit : bitOf refCfg (fetch refCfg s k) k = matchBit m0 k := by
    unfold bitOf matchBit
    refine if_congr ?_ rfl rfl
    rw [memcmp_eq_zero_iff, memcmp_eq_zero_iff]
    simp only [hFrb]
  have hB : ((fetch refCfg s k).bitmap * 2 + bitOf refCfg (fetch refCfg s k) k) % 256
      = Bfold (matchBit m0) (k + 1) := by
    rw [hFbm, hbit, Bfold_succ]
  have hpc : ∀ x y, x = y → packByte (matchBit m0) x = packByte (matchBit m0) y := by
    intro x y h
    rw [h]
  rw [show scanStep refCfg s k
        = commitScan refCfg (fetch refCfg s k)
            (((fetch refCfg s k).bitmap * 2 + bitOf refCfg (fetch refCfg s k) k) % 256)
      from rfl, hB]
  unfold commitScan store_v0
  rw [hFbd, hFhd, hFv0f, hFmemf, hFst, targeted_refCfg, refCfg_W, Nat.add_sub_cancel]
  by_cases h8 : (k + 1) % 8 = 0
  · rw [if_pos h8]
    have hpack : Bfold (matchBit m0) (k + 1) = packByte (matchBit m0) (k / 8) := by
      rw [show k + 1 = 8 * (k / 8) + 8 from by omega]
      exact Bfold_byte (matchBit m0) (matchBit_le m0) (k / 8)
    have ed : (k + 1) / 8 = k / 8 + 1 := by omega
    by_cases hW : (k / 8 + 1) % 1024 = 0
    · rw [if_pos hW]
      have e2 : k / 8 % 1024 = 1023 := by omega
      have e3 : (k + 1) / 8 / 1024 = k / 8 / 1024 + 1 := by omega
      refine ⟨hFbd ▸ rfl, ?_, ?_, ?_, ?_, ?_, ?_, ?_⟩
      · show k / 8 + 1 = (k + 1) / 8
        omega
      · rfl
      · show (fetch refCfg s k).current_row = _
        rw [hFcur, if_neg (by omega), Nat.add_sub_cancel]
      · intro b
        show (fetch refCfg s k).rowbuffer b = _
        rw [hFrb b, if_neg (by omega), Nat.add_sub_cancel]
      · intro j
        show (if j = k / 8 % 1024 then Bfold (matchBit m0) (k + 1) else v0spec m0 k j)
            = v0spec m0 (k + 1) j
        rw [hpack]
        unfold v0spec
        rw [ed]
        split_ifs <;> first | omega | exact hpc _ _ (by omega)
      · intro r b
        show (if r = 32742 + k / 8 / 1024 ∧ b < 1024 then
            (if b = k / 8 % 1024 then Bfold (matchBit m0) (k + 1) else v0spec m0 k b)
          else memspec m0 k r b) = memspec m0 (k + 1) r b
        rw [hpack]
        unfold v0spec memspec
        rw [ed]
        split_ifs <;> first | omega | exact hpc _ _ (by omega)
      · show (List.range (k / 8 / 1024)).map (fun f => 32742 + f) ++ [32742 + k / 8 / 1024]
            = (List.range ((k + 1) / 8 / 1024)).map (fun f => 32742 + f)
        rw [e3, List.range_succ, List.map_append]
        rfl
    · rw [if_neg hW]
      have e3 : (k + 1) / 8 / 1024 = k / 8 / 1024 := by omega
      refine ⟨rfl, ?_, rfl, ?_, ?_, ?_, ?_, ?_⟩
      · show k / 8 + 1 = (k + 1) / 8
        omega
      · show (fetch refCfg s k).current_row = _
        rw [hFcur, if_neg (by omega), Nat.add_sub_cancel]
      · intro b
        show (fetch refCfg s k).rowbuffer b = _
        rw [hFrb b, if_neg (by omega), Nat.add_sub_cancel]
      · intro j
        show (if j = k / 8 % 1024 then Bfold (matchBit m0) (k + 1) else v0spec m0 k j)
            = v0spec m0 (k + 1) j
        rw [hpack]
        unfold v0spec
        rw [ed]
        split_ifs <;> first | omega | exact hpc _ _ (by omega)
      · intro r b
        exact (memspec_stable m0 k r b (by omega)).symm
      · show (List.range (k / 8 / 1024)).map (fun f => 32742 + f) = _
        rw [show (k + 1) / 8 / 1024 = k / 8 / 1024 from by omega]
  · rw [if_neg h8]
    refine ⟨rfl, ?_, rfl, ?_, ?_, ?_, ?_, ?_⟩
    · show k / 8 = (k + 1) / 8
      omega
    · show (fetch refCfg s k).current_row = _
      rw [hFcur, if_neg (by omega), Nat.add_sub_cancel]
    · intro b
      show (fetch refCfg s k).rowbuffer b = _
      rw [hFrb b, if_neg (by omega), Nat.add_sub_cancel]
    · intro j
      show v0spec m0 k j = v0spec m0 (k + 1) j
      exact (v0spec_stable m0 k j (by omega)).symm
    · intro r b
      exact (memspec_stable m0 k r b (by omega)).symm
    · show (List.range (k / 8 / 1024)).map (fun f => 32742 + f) = _
      rw [show (k + 1) / 8 / 1024 = k / 8 / 1024 from by omega]

/-- After `k ≤ RECORDS_PROCESSABLE` iterations of the scan loop from the
post-initialisation state, the whole machine state is characterised by the
invariant. -/
theorem scan_inv (m0 : Nat → Nat → Nat) :
    ∀ k, k ≤ 64440 → Inv m0 k (scanLoop refCfg (startState m0) k) := by
  intro k
  induction k with
  | zero => intro hk; exact Inv_zero m0
  | succ k ih =>
    intro hk
    exact Inv_step m0 k (scanLoop refCfg (startState m0) k) (by omega) (ih (by omega))

/-! ## The draining loop -/

theorem drain_pow_step (x t : Nat) :
    ((x * 2 + 1) % 256 * 2 ^ t + (2 ^ t - 1)) % 256
      = (x * 2 ^ (t + 1) + (2 ^ (t + 1) - 1)) % 256 := by
  have h1 : 1 ≤ (2 : Nat) ^ t := Nat.one_le_two_pow
  have hstep : ((x * 2 + 1) % 256 * 2 ^ t + (2 ^ t - 1)) % 256
      = ((x * 2 + 1) * 2 ^ t + (2 ^ t - 1)) % 256 := by
    conv_lhs => rw [Nat.add_mod, Nat.mod_mul_mod]
    conv_rhs => rw [Nat.add_mod]
  have h2 : (x * 2 + 1) * 2 ^ t + (2 ^ t - 1) = x * 2 ^ (t + 1) + (2 ^ (t + 1) - 1) := by
    obtain ⟨u, hu⟩ : ∃ u, (2 : Nat) ^ t = u + 1 := ⟨2 ^ t - 1, by omega⟩
    rw [Nat.pow_succ, hu, Nat.add_sub_cancel, show (u + 1) * 2 - 1 = 2 * u + 1 from by omega]
    ring
  rw [hstep, h2]

/-- Completing the current byte inside the draining loop: as long as the row
is unfinished, the next `t = 8 - bitdex mod 8` iterations shift in `t` one
bits, write the completed byte into `v0` at `hitdex mod W`, and advance
`hitdex` once. -/
theorem drain_bits (t : Nat) :
    ∀ (s : MState) (fuel : Nat), 1 ≤ t → s.bitdex % 8 + t = 8 → s.hitdex % 1024 ≠ 0 →
      t ≤ fuel →
      drainLoop refCfg fuel s
        = drainLoop refCfg (fuel - t)
            { s with
              bitmap := (s.bitmap * 2 ^ t + (2 ^ t - 1)) % 256
              bitdex := s.bitdex + t
              v0 := fun j =>
                if j = s.hitdex % 1024 then (s.bitmap * 2 ^ t + (2 ^ t - 1)) % 256 else s.v0 j
              hitdex := s.hitdex + 1 } := by
  induction t with
  | zero => intro s fuel h1 h8 hd hf; omega
  | succ t ih =>
    intro s fuel h1 h8 hd hf
    obtain ⟨f, rfl⟩ : ∃ f, fuel = f + 1 := ⟨fuel - 1, by omega⟩
    rw [drainLoop_succ, if_neg hd]
    by_cases ht : t = 0
    · subst ht
      have hstep : drainStep refCfg s =
          { s with
            bitmap := (s.bitmap * 2 ^ (0 + 1) + (2 ^ (0 + 1) - 1)) % 256
            bitdex := s.bitdex + (0 + 1)
            v0 := fun j =>
              if j = s.hitdex % 1024 then (s.bitmap * 2 ^ (0 + 1) + (2 ^ (0 + 1) - 1)) % 256
              else s.v0 j
            hitdex := s.hitdex + 1 } := by
        unfold drainStep
        rw [if_pos (by omega)]
        rfl
      rw [hstep]
      rw [show f + 1 - (0 + 1) = f from by omega]
    · have hb : (s.bitdex + 1) % 8 ≠ 0 := by omega
      have hstep : drainStep refCfg s =
          { s with bitmap := (s.bitmap * 2 + 1) % 256, bitdex := s.bitdex + 1 } := by
        unfold drainStep
        rw [if_neg hb]
      rw [hstep]
      rw [ih { s with bitmap := (s.bitmap * 2 + 1) % 256, bitdex := s.bitdex + 1 } f
        (by omega) (by show (s.bitdex + 1) % 8 + t = 8; omega)
        (by show s.hitdex % 1024 ≠ 0; exact hd) (by omega)]
      rw [show f + 1 - (t + 1) = f - t from by omega]
      congr 1
      refine MState.ext rfl rfl rfl ?_ ?_ ?_ rfl rfl
      · funext j
        show (if j = s.hitdex % 1024 then ((s.bitmap * 2 + 1) % 256 * 2 ^ t + (2 ^ t - 1)) % 256
            else s.v0 j)
          = (if j = s.hitdex % 1024 then (s.bitmap * 2 ^ (t + 1) + (2 ^ (t + 1) - 1)) % 256
            else s.v0 j)
        split_ifs
        · exact drain_pow_step s.bitmap t
        · rfl
      · show ((s.bitmap * 2 + 1) % 256 * 2 ^ t + (2 ^ t - 1)) % 256
          = (s.bitmap * 2 ^ (t + 1) + (2 ^ (t + 1) - 1)) % 256
        exact drain_pow_step s.bitmap t
      · show s.bitdex + 1 + t = s.bitdex + (t + 1)
        omega

/-- Filling the rest of the accumulator row inside the draining loop: from a
byte-aligned state, the loop appends `n = 1024 - hitdex mod 1024` bytes of
`0xFF` and stops exactly when the row is complete. -/
theorem drain_bytes (n : Nat) :
    ∀ (s : MState) (fuel : Nat), s.bitdex % 8 = 0 → s.hitdex % 1024 ≠ 0 →
      n = 1024 - s.hitdex % 1024 → 8 * n ≤ fuel →
      drainLoop refCfg fuel s
        = { s with
            bitmap := 255
            bitdex := s.bitdex + 8 * n
            v0 := fun j => if s.hitdex % 1024 ≤ j ∧ j < 1024 then 255 else s.v0 j
            hitdex := s.hitdex + n } := by
  induction n with
  | zero => intro s fuel hb8 hd hn hf; omega
  | succ n ih =>
    intro s fuel hb8 hd hn hf
    rw [drain_bits 8 s fuel (by omega) (by omega) hd (by omega)]
    have h256 : (2 : Nat) ^ 8 = 256 := by norm_num
    by_cases hz : n = 0
    · subst hz
      have hd23 : s.hitdex % 1024 = 1023 := by omega
      rw [drainLoop_done _ _ (by show (s.hitdex + 1) % 1024 = 0; omega)]
      refine MState.ext rfl rfl rfl ?_ ?_ ?_ ?_ rfl
      · funext j
        show (if j = s.hitdex % 1024 then (s.bitmap * 2 ^ 8 + (2 ^ 8 - 1)) % 256 else s.v0 j)
          = (if s.hitdex % 1024 ≤ j ∧ j < 1024 then 255 else s.v0 j)
        rw [h256]
        split_ifs <;> omega
      · show (s.bitmap * 2 ^ 8 + (2 ^ 8 - 1)) % 256 = 255
        rw [h256]
        omega
      · show s.bitdex + 8 = s.bitdex + 8 * 1
        omega
      · show s.hitdex + 1 = s.hitdex + 1
        rfl
    · rw [ih
        { s with
          bitmap := (s.bitmap * 2 ^ 8 + (2 ^ 8 - 1)) % 256
          bitdex := s.bitdex + 8
          v0 := fun j =>
            if j = s.hitdex % 1024 then (s.bitmap * 2 ^ 8 + (2 ^ 8 - 1)) % 256 else s.v0 j
          hitdex := s.hitdex + 1 }
        (fuel - 8)
        (by show (s.bitdex + 8) % 8 = 0; omega)
        (by show (s.hitdex + 1) % 1024 ≠ 0; omega)
        (by show n = 1024 - (s.hitdex + 1) % 1024; omega)
        (by omega)]
      refine MState.ext rfl rfl rfl ?_ rfl ?_ ?_ rfl
      · funext j
        show (if (s.hitdex + 1) % 1024 ≤ j ∧ j < 1024 then 255
            else if j = s.hitdex % 1024 then (s.bitmap * 2 ^ 8 + (2 ^ 8 - 1)) % 256 else s.v0 j)
          = (if s.hitdex % 1024 ≤ j ∧ j < 1024 then 255 else s.v0 j)
        rw [h256]
        split_ifs <;> omega
      · show (s.bitdex + 8) + 8 * n = s.bitdex + 8 * (n + 1)
        omega
      · show (s.hitdex + 1) + n = s.hitdex + (n + 1)
        omega

/-- Full characterisation of the draining loop (lines 194-204): whenever the
row in progress is unfinished on entry, the loop pads the pending partial
byte with ones, writes it at slot `hitdex mod 1024`, fills the rest of the
row with `0xFF` bytes, and stops with `hitdex` at the next multiple of 1024.
The fuel budget `8 * W = 8192` of `run` always suffices. -/
theorem drain_char (s : MState) (hd : s.hitdex % 1024 ≠ 0) (fuel : Nat) (hf : 8192 ≤ fuel) :
    drainLoop refCfg fuel s
      = { s with
          bitmap := drainSpecV0 s.v0 s.bitmap (s.bitdex % 8) (s.hitdex % 1024) 1023
          bitdex := s.bitdex + (8 * (1024 - s.hitdex % 1024) - s.bitdex % 8)
          v0 := drainSpecV0 s.v0 s.bitmap (s.bitdex % 8) (s.hitdex % 1024)
          hitdex := s.hitdex + (1024 - s.hitdex % 1024) } := by
  have hdlt : s.hitdex % 1024 < 1024 := Nat.mod_lt _ (by omega)
  by_cases hq0 : s.bitdex % 8 = 0
  · rw [drain_bytes (1024 - s.hitdex % 1024) s fuel hq0 hd rfl (by omega)]
    refine MState.ext rfl rfl rfl ?_ ?_ ?_ rfl rfl
    · funext j
      show (if s.hitdex % 1024 ≤ j ∧ j < 1024 then 255 else s.v0 j)
        = drainSpecV0 s.v0 s.bitmap (s.bitdex % 8) (s.hitdex % 1024) j
      unfold drainSpecV0
      rw [hq0]
      split_ifs <;> first | rfl | omega
    · show (255 : Nat) = drainSpecV0 s.v0 s.bitmap (s.bitdex % 8) (s.hitdex % 1024) 1023
      unfold drainSpecV0
      rw [hq0]
      split_ifs <;> omega
    · show s.bitdex + 8 * (1024 - s.hitdex % 1024)
        = s.bitdex + (8 * (1024 - s.hitdex % 1024) - s.bitdex % 8)
      omega
  · rw [drain_bits (8 - s.bitdex % 8) s fuel (by omega) (by omega) hd (by omega)]
    by_cases hd1 : (s.hitdex + 1) % 1024 = 0
    · have hd23 : s.hitdex % 1024 = 1023 := by omega
      rw [drainLoop_done _ _ (by show (s.hitdex + 1) % 1024 = 0; exact hd1)]
      refine MState.ext rfl rfl rfl ?_ ?_ ?_ ?_ rfl
      · funext j
        show (if j = s.hitdex % 1024
            then (s.bitmap * 2 ^ (8 - s.bitdex % 8) + (2 ^ (8 - s.bitdex % 8) - 1)) % 256
            else s.v0 j)
          = drainSpecV0 s.v0 s.bitmap (s.bitdex % 8) (s.hitdex % 1024) j
        unfold drainSpecV0
        split_ifs <;> first | rfl | omega
      · show (s.bitmap * 2 ^ (8 - s.bitdex % 8) + (2 ^ (8 - s.bitdex % 8) - 1)) % 256
          = drainSpecV0 s.v0 s.bitmap (s.bitdex % 8) (s.hitdex % 1024) 1023
        unfold drainSpecV0
        split_ifs <;> first | rfl | omega
      · show s.bitdex + (8 - s.bitdex % 8)
          = s.bitdex + (8 * (1024 - s.hitdex % 1024) - s.bitdex % 8)
        omega
      · show s.hitdex + 1 = s.hitdex + (1024 - s.hitdex % 1024)
        omega
    · have hd22 : s.hitdex % 1024 ≤ 1022 := by omega
      rw [drain_bytes (1023 - s.hitdex % 1024)
        { s with
          bitmap := (s.bitmap * 2 ^ (8 - s.bitdex % 8) + (2 ^ (8 - s.bitdex % 8) - 1)) % 256
          bitdex := s.bitdex + (8 - s.bitdex % 8)
          v0 := fun j =>
            if j = s.hitdex % 1024
            then (s.bitmap * 2 ^ (8 - s.bitdex % 8) + (2 ^ (8 - s.bitdex % 8) - 1)) % 256
            else s.v0 j
          hitdex := s.hitdex + 1 }
        (fuel - (8 - s.bitdex % 8))
        (by show (s.bitdex + (8 - s.bitdex % 8)) % 8 = 0; omega)
        (by show (s.hitdex + 1) % 1024 ≠ 0; exact hd1)
        (by show 1023 - s.hitdex % 1024 = 1024 - (s.hitdex + 1) % 1024; omega)
        (by omega)]
      refine MState.ext rfl rfl rfl ?_ ?_ ?_ ?_ rfl
      · funext j
        show (if (s.hitdex + 1) % 1024 ≤ j ∧ j < 1024 then 255
            else if j = s.hitdex % 1024
              then (s.bitmap * 2 ^ (8 - s.bitdex % 8) + (2 ^ (8 - s.bitdex % 8) - 1)) % 256
              else s.v0 j)
          = drainSpecV0 s.v0 s.bitmap (s.bitdex % 8) (s.hitdex % 1024) j
        unfold drainSpecV0
        split_ifs <;> first | rfl | omega
      · show (255 : Nat) = drainSpecV0 s.v0 s.bitmap (s.bitdex % 8) (s.hitdex % 1024) 1023
        unfold drainSpecV0
        split_ifs <;> first | rfl | omega
      · show s.bitdex + (8 - s.bitdex % 8) + 8 * (1023 - s.hitdex % 1024)
          = s.bitdex + (8 * (1024 - s.hitdex % 1024) - s.bitdex % 8)
        omega
      · show s.hitdex + 1 + (1023 - s.hitdex % 1024) = s.hitdex + (1024 - s.hitdex % 1024)
        omega

/-! ## The complete run, when the final accumulator row is unfinished -/

/-- The final machine state of `run` with `RecordsProcessable = rp`, for any
`rp` within the capacity of the reference geometry whose completed-byte
count does not land exactly on a row boundary: the scan flushes
`rp / 8 / 1024` full hitmap rows, the drain pads the last row, and the
final store writes it at the next row of the targeted hitmap. -/
theorem run_fields (rp : Nat) (m0 : Nat → Nat → Nat) (hrp : rp ≤ 64440)
    (hd : rp / 8 % 1024 ≠ 0) :
    (∀ r b, (run (cfgRP rp) m0).mem r b =
      if r = 32742 + rp / 8 / 1024 ∧ b < 1024 then
        drainSpecV0 (v0spec m0 rp) (Bfold (matchBit m0) rp) (rp % 8) (rp / 8 % 1024) b
      else memspec m0 rp r b) ∧
    (∀ j, (run (cfgRP rp) m0).v0 j =
      drainSpecV0 (v0spec m0 rp) (Bfold (matchBit m0) rp) (rp % 8) (rp / 8 % 1024) j) ∧
    (run (cfgRP rp) m0).stores =
      (List.range (rp / 8 / 1024)).map (fun f => 32742 + f) ++ [32742 + rp / 8 / 1024] ∧
    (run (cfgRP rp) m0).hitdex = (rp / 8 / 1024 + 1) * 1024 := by
  have I := scan_inv m0 rp hrp
  have hdc := drain_char (scanLoop refCfg (startState m0) rp)
    (by rw [I.hhitdex]; exact hd) 8192 (le_refl _)
  have hv0f : (scanLoop refCfg (startState m0) rp).v0 = v0spec m0 rp := funext I.hv0
  have hmemf : (scanLoop refCfg (startState m0) rp).mem = memspec m0 rp :=
    funext fun r => funext fun b => I.hmem r b
  rw [run_cfgRP, hdc]
  dsimp only
  rw [I.hbitdex, I.hhitdex, I.hbitmap, hv0f, hmemf, I.hstores]
  rw [show rp / 8 + (1024 - rp / 8 % 1024) = (rp / 8 / 1024 + 1) * 1024 from by omega]
  rw [show ((rp / 8 / 1024 + 1) * 1024 - 1) / 1024 = rp / 8 / 1024 from by omega]
  refine ⟨?_, ?_, ?_, ?_⟩
  · intro r b
    unfold store_v0
    dsimp only
    rw [refCfg_W]
  · intro j
    rfl
  · rfl
  · rfl

/-- The low `p` bits of a byte produced by shifting `p` one bits into an
accumulator are all ones. -/
theorem mix_low_bits (p x : Nat) (h2 : p ≤ 8) :
    (x * 2 ^ p + (2 ^ p - 1)) % 256 % 2 ^ p = 2 ^ p - 1 := by
  have hdvd : 2 ^ p ∣ 256 := by
    rw [show (256 : Nat) = 2 ^ 8 from by norm_num]
    exact pow_dvd_pow 2 h2
  have hlt : 2 ^ p - 1 < 2 ^ p := by
    have := Nat.one_le_two_pow (n := p)
    omega
  rw [Nat.mod_mod_of_dvd _ hdvd, Nat.mul_comm x (2 ^ p), Nat.mul_add_mod, Nat.mod_eq_of_lt hlt]

/-! ## Claim theorems: layout, zones, row buffer, comparison, dumper -/

/-- C4: the Layout Planner maps record index `i` to
`(RecordBaseRow + i / RecordsPerRow, (i mod RecordsPerRow) * RecordSize)`
when `RecordsPerRow > 0`, and to `(RecordBaseRow + i * RowsPerRecord, 0)`
otherwise; exactly one of the two branches applies for a fixed
configuration. -/
theorem claim4_layout_planner (c : Config) (i : Nat) :
    (0 < records_per_row c →
      record_row c i = c.recordBaseRow + i / records_per_row c ∧
      record_offset c i = i % records_per_row c * c.recordSize) ∧
    (records_per_row c = 0 →
      record_row c i = c.recordBaseRow + i * rows_per_record c ∧
      record_offset c i = 0) ∧
    ((0 < records_per_row c) ↔ ¬records_per_row c = 0) := by
  unfold record_row record_offset
  refine ⟨?_, ?_, by omega⟩
  · intro h
    rw [if_neg (by omega), if_neg (by omega)]
    exact ⟨rfl, rfl⟩
  · intro h
    rw [if_pos h, if_pos h]
    exact ⟨rfl, rfl⟩

theorem claim4_witness :
    record_row refCfg 5 = 514 + 5 / 2 ∧ record_offset refCfg 5 = 5 % 2 * 512 :=
  (claim4_layout_planner refCfg 5).1 (by decide)

/-- C6: for the reference geometry the utility, record, hitmap and tail row
ranges are pairwise disjoint and together cover `[0, BANK_ROWS)` exactly
once, and `RECORD_BASE_ROW + ROWS_FOR_RECORDS ≤ HITMAP_BASE_ROW`. -/
theorem claim6_zone_partition :
    (∀ r, r < BANK_ROWS →
      (utilityZone r ∨ recordZone r ∨ hitmapZone r ∨ tailZone r) ∧
      ¬(utilityZone r ∧ recordZone r) ∧ ¬(utilityZone r ∧ hitmapZone r) ∧
      ¬(utilityZone r ∧ tailZone r) ∧ ¬(recordZone r ∧ hitmapZone r) ∧
      ¬(recordZone r ∧ tailZone r) ∧ ¬(hitmapZone r ∧ tailZone r)) ∧
    RECORD_BASE_ROW + ROWS_FOR_RECORDS ≤ HITMAP_BASE_ROW := by
  unfold utilityZone recordZone hitmapZone tailZone BANK_ROWS RECORD_BASE_ROW
    HITMAP_BASE_ROW ROWS_FOR_HITMAPS ROWS_FOR_RECORDS
  constructor
  · intro r hr
    omega
  · omega

theorem claim6_witness :
    utilityZone 100 ∨ recordZone 100 ∨ hitmapZone 100 ∨ tailZone 100 :=
  (claim6_zone_partition.1 100 (by decide)).1

/-- C7: loading the same row twice consecutively is an idempotent no-op,
`current_row` equals the requested row after a load, and the scan engine
skips the reload (leaving row buffer and current row unchanged) when the
wanted row is already resident. -/
theorem claim7_row_residency (c : Config) (s : MState) (r : Nat) :
    load_row (load_row s r) r = load_row s r ∧
    (load_row s r).current_row = r ∧
    (∀ i, s.current_row = record_row c i →
      (scanStep c s i).rowbuffer = s.rowbuffer ∧
      (scanStep c s i).current_row = s.current_row) := by
  refine ⟨rfl, rfl, ?_⟩
  intro i h
  have hf : fetch c s i = s := by
    unfold fetch
    rw [if_neg (by simp [h])]
  constructor
  · unfold scanStep
    rw [hf, commitScan_rowbuffer]
  · unfold scanStep
    rw [hf, commitScan_current_row]

theorem claim7_witness :
    (load_row (load_row (startState dataZero) 5) 5 = load_row (startState dataZero) 5) ∧
    (load_row (startState dataZero) 5).current_row = 5 :=
  ⟨(claim7_row_residency refCfg (startState dataZero) 5).1,
    (claim7_row_residency refCfg (startState dataZero) 5).2.1⟩

/-- C8: the match decision is an exact fixed-width byte-for-byte comparison
(`memcmp` is zero exactly when all compared bytes agree), the negate flag
has no influence on the run, and the bit shifted into the accumulator is 1
exactly when the `elementSize` bytes at `offset + subindexOffset` of the
fetched row buffer all equal the target value. -/
theorem claim8_exact_match_no_negate :
    (∀ (a : Nat → Nat) (i : Nat) (b : Nat → Nat) (j n : Nat),
      memcmp a i b j n = 0 ↔ ∀ z, z < n → a (i + z) = b (j + z)) ∧
    (∀ (c : Config) (x y : Nat) (m : Nat → Nat → Nat),
      run { c with negate := x } m = run { c with negate := y } m) ∧
    (∀ (c : Config) (s : MState) (i : Nat),
      (scanStep c s i).bitmap =
        ((fetch c s i).bitmap * 2 +
          if (∀ z, z < c.elementSize →
              (fetch c s i).rowbuffer (record_offset c i + c.subindexOffset + z) = c.value z)
          then 1 else 0) % 256) := by
  refine ⟨fun a i b j n => memcmp_eq_zero_iff a b n i j, run_negate, ?_⟩
  intro c s i
  have hcond : bitOf c (fetch c s i) i =
      if (∀ z, z < c.elementSize →
          (fetch c s i).rowbuffer (record_offset c i + c.subindexOffset + z) = c.value z)
      then 1 else 0 := by
    unfold bitOf
    refine if_congr ?_ rfl rfl
    rw [memcmp_eq_zero_iff]
    simp
  unfold scanStep
  rw [commitScan_bitmap, hcond]

theorem claim8_witness :
    memcmp (fun _ => 0) 0 (fun _ => 0) 0 3 = 0 :=
  (claim8_exact_match_no_negate.1 (fun _ => 0) 0 (fun _ => 0) 0 3).mpr (by intro z hz; rfl)

/-- C9: the Dumper computes the address label of a row from the row index
truncated to 8 bits (the `(uint8_t)` cast applies to `row`, not to the
product), so the label of row 256 is 0, not `256 * W`.  The claimed label
`r * W` therefore diverges from the code at row 256. -/
theorem claim9_dump_addr_truncated :
    dump_addr 256 = 0 ∧ 256 * ROW_BUFFER_BYTES = 262144 ∧
    dump_addr 256 ≠ 256 * ROW_BUFFER_BYTES := by
  refine ⟨rfl, rfl, by decide⟩

/-- C2, counterexample: with `RecordsProcessable = 0` the first byte of the
targeted hitmap base row is not `0xFF` after the run. -/
theorem claim2_counterexample :
    ¬(run (cfgRP 0) (initMem dataOnes)).mem 32742 0 = 255 := by decide

/-- C2, amended: with `RecordsProcessable = 0` the draining loop exits
immediately (`hitdex % W = 0` already holds), so the final flush stores the
untouched all-zero accumulator row into the targeted hitmap base row: its
first byte reads `0x00`, and that store is the only write of the run. -/
theorem claim2_amended (data : Nat → Nat → Nat) :
    (run (cfgRP 0) (initMem data)).mem 32742 0 = 0 ∧
    (run (cfgRP 0) (initMem data)).stores = [32742] := by
  rw [run_cfgRP]
  rw [show scanLoop refCfg (startState (initMem data)) 0 = startState (initMem data) from rfl]
  rw [drainLoop_done 8192 (startState (initMem data)) rfl]
  unfold store_v0 startState
  simp [refCfg_W]

/-! ## Claim theorems: padding, bit order, flush addressing, frame -/

/-- C1 (amended): for every `RecordsProcessable` that is not a multiple of 8
and whose completed-byte count `RecordsProcessable / 8` is not a multiple of
`W = 1024` (otherwise the draining loop is skipped and the partial byte is
discarded), the drain pads the in-progress byte with one bits and writes it
into `v0` at slot `(RecordsProcessable / 8) mod W`; after the final flush
the last output byte, at that offset of hitmap row
`32742 + RecordsProcessable / 8 / 1024` (inside the targeted hitmap's row
range, which ends at 32750), has all of its unused low-order bits equal
to 1. -/
theorem claim1_drain_padding (rp : Nat) (data : Nat → Nat → Nat)
    (hrp : rp ≤ 64440) (h8 : rp % 8 ≠ 0) (hd : rp / 8 % 1024 ≠ 0) :
    (run (cfgRP rp) (initMem data)).v0 (rp / 8 % 1024) % 2 ^ (8 - rp % 8)
        = 2 ^ (8 - rp % 8) - 1 ∧
    (run (cfgRP rp) (initMem data)).mem (32742 + rp / 8 / 1024) (rp / 8 % 1024)
        % 2 ^ (8 - rp % 8) = 2 ^ (8 - rp % 8) - 1 ∧
    32742 + rp / 8 / 1024 < 32750 := by
  obtain ⟨hmem, hv0, hst, hhd⟩ := run_fields rp (initMem data) hrp hd
  have hval : drainSpecV0 (v0spec (initMem data) rp) (Bfold (matchBit (initMem data)) rp)
      (rp % 8) (rp / 8 % 1024) (rp / 8 % 1024)
      = (Bfold (matchBit (initMem data)) rp * 2 ^ (8 - rp % 8)
          + (2 ^ (8 - rp % 8) - 1)) % 256 := by
    unfold drainSpecV0
    rw [if_pos ⟨le_refl _, Nat.mod_lt _ (by omega)⟩, if_pos rfl]
  refine ⟨?_, ?_, by omega⟩
  · rw [hv0 (rp / 8 % 1024), hval, mix_low_bits _ _ (by omega)]
  · rw [hmem (32742 + rp / 8 / 1024) (rp / 8 % 1024),
      if_pos ⟨rfl, Nat.mod_lt _ (by omega)⟩, hval, mix_low_bits _ _ (by omega)]

theorem claim1_witness :
    (run (cfgRP 13) (initMem dataZero)).v0 (13 / 8 % 1024) % 2 ^ (8 - 13 % 8)
        = 2 ^ (8 - 13 % 8) - 1 ∧
    (run (cfgRP 13) (initMem dataZero)).mem (32742 + 13 / 8 / 1024) (13 / 8 % 1024)
        % 2 ^ (8 - 13 % 8) = 2 ^ (8 - 13 % 8) - 1 ∧
    32742 + 13 / 8 / 1024 < 32750 :=
  claim1_drain_padding 13 dataZero (by decide) (by decide) (by decide)

/-- C1, counterexample to the claim as stated: for `RecordsProcessable = 3`
(not a multiple of 8), the draining loop is skipped because
`hitdex = 3 / 8 = 0` is already a multiple of `W`; the partial byte holding
the three comparison bits is discarded, never padded, never written to `v0`,
and the flushed byte at the last-output position is 0, whose low 5 bits are
not all ones. -/
theorem claim1_counterexample :
    ¬((run (cfgRP 3) (initMem dataOnes)).v0 (3 / 8 % 1024) % 2 ^ (8 - 3 % 8)
          = 2 ^ (8 - 3 % 8) - 1 ∧
      (run (cfgRP 3) (initMem dataOnes)).mem (32742 + 3 / 8 / 1024) (3 / 8 % 1024)
          % 2 ^ (8 - 3 % 8) = 2 ^ (8 - 3 % 8) - 1) := by
  decide

/-- C3: result bits are packed most-significant-bit-first.  The accumulator
byte is built by shifting left and OR-ing in the match bit (`Bfold` is
exactly that fold, and it equals the scan's `bitmap` at every step); each
completed group of 8 bits equals the MSB-first packed byte of the group
(record `8a` at weight 128, record `8a + 7` at weight 1); and on the
concrete P3 bank, where exactly records 0, 3 and 5 of the first eight
match, the first byte of the targeted hitmap row is `0b10010100`. -/
theorem claim3_msb_first (m0 : Nat → Nat → Nat) (k : Nat) (hk : k ≤ 64440) :
    (scanLoop refCfg (startState m0) k).bitmap = Bfold (matchBit m0) k ∧
    (∀ a, Bfold (matchBit m0) (8 * a + 8) = packByte (matchBit m0) a) ∧
    (run (cfgRP 16) memC3).mem (targeted_hitmap_base refCfg) 0 = 0b10010100 := by
  refine ⟨(scan_inv m0 k hk).hbitmap, fun a => Bfold_byte (matchBit m0) (matchBit_le m0) a, ?_⟩
  have h := (run_fields 16 memC3 (by omega) (by decide)).1 32742 0
  rw [targeted_refCfg, h, if_pos (by norm_num)]
  unfold drainSpecV0 v0spec
  norm_num
  decide

theorem claim3_witness :
    (scanLoop refCfg (startState memC3) 16).bitmap = Bfold (matchBit memC3) 16 :=
  (claim3_msb_first memC3 16 (by decide)).1

/-- C5: each time 1024 completed bytes have accumulated the accumulator row
is flushed; the ghost store log after `k` scanned records is exactly the
rows `targeted_hitmap_base + 0, ..., targeted_hitmap_base + k / 8 / W - 1`
in order, so the flush that happens when `hitdex mod W` becomes 0 targets
`targeted_hitmap_base + (hitdex - 1) / W`; completed byte `b` is written
into `v0` at offset `b mod W`; and the targeted base row is
`HitmapBaseRow + (RowsForHitmaps / HitmapCount) * HitmapIndex
= 32734 + 8 * 1`. -/
theorem claim5_flush_addressing :
    (∀ (m0 : Nat → Nat → Nat) (k : Nat), k ≤ 64440 →
      (scanLoop refCfg (startState m0) k).stores
        = (List.range (k / 8 / 1024)).map (fun f => targeted_hitmap_base refCfg + f)) ∧
    (∀ (m0 : Nat → Nat → Nat) (b : Nat), 8 * (b + 1) ≤ 64440 →
      (scanLoop refCfg (startState m0) (8 * (b + 1))).v0 (b % 1024)
        = packByte (matchBit m0) b) ∧
    rows_per_hitmap refCfg = 8 ∧
    targeted_hitmap_base refCfg = 32734 + 8 * 1 := by
  refine ⟨?_, ?_, rfl, rfl⟩
  · intro m0 k hk
    rw [targeted_refCfg]
    exact (scan_inv m0 k hk).hstores
  · intro m0 b hb
    rw [(scan_inv m0 (8 * (b + 1)) hb).hv0 (b % 1024)]
    unfold v0spec
    rw [show 8 * (b + 1) / 8 = b + 1 from by omega]
    split_ifs <;> first | omega | (congr 1; omega)

theorem claim5_witness :
    (scanLoop refCfg (startState dataZero) (8 * (0 + 1))).v0 (0 % 1024)
      = packByte (matchBit dataZero) 0 :=
  claim5_flush_addressing.2.1 dataZero 0 (by decide)

/-- Rows of the hitmap zone are initialised to all `0xFF` bytes. -/
theorem initMem_hitmap (data : Nat → Nat → Nat) (r b : Nat)
    (h1 : 32734 ≤ r) (h2 : r < 32758) : initMem data r b = 255 := by
  unfold initMem RECORD_BASE_ROW HITMAP_BASE_ROW ROWS_FOR_HITMAPS
  rw [if_neg (by omega), if_neg (by omega), if_pos (by omega)]

/-- C10: the reference run writes RowStore only at rows of the targeted
hitmap's range `[32742, 32750)`: every store in the ghost log targets that
range, every row outside it is byte-identical to the initialised memory at
the end of the run, and in particular the two untargeted hitmaps (rows
`[32734, 32742)` and `[32750, 32758)`) still read all `0xFF`. -/
theorem claim10_frame (data : Nat → Nat → Nat) (r b : Nat) :
    (∀ row, row ∈ (run refCfg (initMem data)).stores → 32742 ≤ row ∧ row < 32750) ∧
    ((r < 32742 ∨ 32750 ≤ r) → (run refCfg (initMem data)).mem r b = initMem data r b) ∧
    ((32734 ≤ r ∧ r < 32742) ∨ (32750 ≤ r ∧ r < 32758) →
      (run refCfg (initMem data)).mem r b = 255) := by
  have e : run refCfg (initMem data) = run (cfgRP 64440) (initMem data) := rfl
  obtain ⟨hmem, hv0, hst, hhd⟩ := run_fields 64440 (initMem data) (by omega) (by decide)
  rw [e]
  refine ⟨?_, ?_, ?_⟩
  · intro row hrow
    rw [hst] at hrow
    simp only [List.mem_append, List.mem_map, List.mem_range, List.mem_singleton] at hrow
    rcases hrow with ⟨f, hf, rfl⟩ | rfl <;> omega
  · intro hr
    rw [hmem r b, if_neg (by omega)]
    unfold memspec
    rw [if_neg (by omega)]
  · intro hr
    rw [hmem r b, if_neg (by omega)]
    unfold memspec
    rw [if_neg (by omega)]
    exact initMem_hitmap data r b (by omega) (by omega)

theorem claim10_witness :
    (run refCfg (initMem dataZero)).mem 0 0 = initMem dataZero 0 0 :=
  (claim10_frame dataZero 0 0).2.1 (Or.inl (by omega))

end BlimpEq
